import Mathlib

/-
Verification development for the Clippo repository (src/app.py),
a Flask app that downloads Instagram media via an external extractor
(yt_dlp) into an ephemeral on-disk cache and expires files with a
background sweeper.

The embedding below translates the Python source into Lean:
pure string helpers become Lean functions on String / List Char,
the upload folder becomes an explicit list of files with modification
timestamps, the request handlers become pure functions from their
inputs (parsed request data, the extractor outcome, the current store)
to a response, the new store, and a trace of the effects the handler
performs.  Clock values and timestamps (Python floats from time.time()
and os.path.getmtime) are modelled as integers.
-/

set_option autoImplicit false

namespace Clippo

/-- app.config MAX_FILE_AGE_SECONDS (app.py line 15): the TTL, 60 seconds. -/
def MAX_FILE_AGE_SECONDS : Int := 60

/-- app.config CLEANUP_INTERVAL_SECONDS (app.py line 16): sweep interval, 30 seconds. -/
def CLEANUP_INTERVAL_SECONDS : Nat := 30

/-- app.config UPLOAD_FOLDER (app.py line 14). -/
def UPLOAD_FOLDER : String := "static/downloads"

/-- The characters matched by the regex character class in clean_filename
(app.py line 33): backslash, slash, star, question mark, colon,
double quote, less-than, greater-than, pipe. -/
def badChars : List Char := ['\\', '/', '*', '?', ':', '"', '<', '>', '|']

/-- clean_filename (app.py lines 31-33): re.sub removes every character of
the class from the string and leaves all other characters in place. -/
def clean_filename (filename : String) : String :=
  String.mk (filename.data.filter (fun c => !(badChars.contains c)))

/-- A URL string together with its urlparse decomposition: raw is the string
held by the request, scheme and netloc are the components urlparse extracts
from it (urllib.parse, external to the repository). -/
structure Url where
  raw : String
  scheme : String
  netloc : String
deriving Repr, DecidableEq

/-- Contiguous occurrence of pat inside a character list. -/
def listHasInfix (pat : List Char) : List Char → Bool
  | [] => pat.isEmpty
  | c :: rest => pat.isPrefixOf (c :: rest) || listHasInfix pat rest

/-- Python substring membership, pat in s: pat occurs contiguously in s. -/
def hasSubstr (pat s : String) : Bool :=
  listHasInfix pat.data s.data

/-- is_valid_url (app.py lines 35-41): both scheme and netloc are truthy
(non-empty) and the netloc contains the substring instagram.com. -/
def is_valid_url (u : Url) : Bool :=
  (!(u.scheme == "") && !(u.netloc == "")) && hasSubstr "instagram.com" u.netloc

/-- One directory entry of the upload folder, as the sweeper sees it:
its name, its modification timestamp (os.path.getmtime), and whether
os.path.isfile holds for it (false for subdirectories and the like). -/
structure FsFile where
  name : String
  mtime : Int
  isRegular : Bool
deriving Repr, DecidableEq, BEq

/-- os.remove on a single name in the store: removes the file when present,
raises (modelled as Except.error) when the file is already gone. -/
def os_remove (name : String) (disk : List FsFile) : Except String (List FsFile) :=
  if disk.any (fun f => f.name == name) then
    Except.ok (disk.filter (fun f => !(f.name == name)))
  else
    Except.error "FileNotFoundError"

/-- The try/except around os.remove in cleanup_old_files (app.py lines 56-61):
a failed removal is caught and logged, leaving the store as it was; the
caller always proceeds normally. -/
def remove_logged (name : String) (disk : List FsFile) : List FsFile :=
  match os_remove name disk with
  | Except.ok d => d
  | Except.error _ => disk

/-- The age test of the sweeper (app.py line 55):
now minus the modification time is strictly greater than the TTL. -/
def isExpired (now maxAge : Int) (f : FsFile) : Bool :=
  decide (now - f.mtime > maxAge)

/-- One iteration of the loop body of cleanup_old_files (app.py lines 52-61)
for one listed name: os.path.isfile is checked (a vanished or non-regular
entry is skipped), then the age test, then os.remove wrapped in try/except
(fails tells which removals raise; a raised removal is caught and the file
stays).  The store is searched by name, mirroring the full path lookup. -/
def processFile (now maxAge : Int) (fails : String → Bool)
    (disk : List FsFile) (name : String) : List FsFile :=
  match disk.find? (fun f => f.name == name) with
  | none => disk
  | some f =>
    if f.isRegular then
      if isExpired now maxAge f then
        if fails name then disk
        else disk.filter (fun g => !(g.name == name))
      else disk
    else disk

/-- Whether one iteration of the sweep loop deletes the file: it is a
regular file, its age exceeds the TTL, and its removal does not raise. -/
def sweptAway (now maxAge : Int) (fails : String → Bool) (f : FsFile) : Bool :=
  f.isRegular && isExpired now maxAge f && !(fails f.name)

/-- cleanup_old_files (app.py lines 43-64): one sweep pass.  now models
time.time(), maxAge the configured TTL, listing the os.listdir snapshot
taken at the start of the pass, disk the current store contents, and
fails the per-name outcome of os.remove (true when the removal raises). -/
def cleanup_old_files (now maxAge : Int) (fails : String → Bool)
    (listing : List String) (disk : List FsFile) : List FsFile :=
  listing.foldl (processFile now maxAge fails) disk

/-- Events of the background sweeper thread, indexed by loop iteration:
the sleep of the loop body, then the start and the end of the cleanup
pass of that iteration. -/
inductive SweepEvent where
  | sleep (i : Nat)
  | passStart (i : Nat)
  | passEnd (i : Nat)
deriving Repr, DecidableEq, BEq

/-- background_cleanup_task (app.py lines 66-70): the single daemon thread
runs an unbounded sequential loop, each iteration sleeping for the
configured interval and then running one cleanup pass to completion
before the loop continues.  The trace of the first n iterations. -/
def background_cleanup_trace : Nat → List SweepEvent
  | 0 => []
  | Nat.succ n =>
      background_cleanup_trace n ++
        [SweepEvent.sleep n, SweepEvent.passStart n, SweepEvent.passEnd n]

/-- Selects the pass boundary events of the sweeper trace. -/
def isPassEvent : SweepEvent → Bool
  | SweepEvent.passStart _ => true
  | SweepEvent.passEnd _ => true
  | SweepEvent.sleep _ => false

/-- Effects a request handler can perform, in order: a call to
cleanup_old_files, an invocation of the external extractor (with the raw
URL and, when download=True, the outtmpl target handed over), a file
rename, a file removal.
The vocabulary covers the actions the spec attributes to the handlers;
the embedding of each handler emits exactly the ones the source performs. -/
inductive Event where
  | cleanupRun
  | extractCall (url : String) (target : Option String)
  | fileRename (src dst : String)
  | fileRemove (name : String)
deriving Repr, DecidableEq, BEq

/-- The data the download handler reads off a successful extractor call
(app.py lines 125-133): the title from the info dict, the path
ydl.prepare_filename(info) reports for the file the extractor wrote,
and the modification timestamp that file ends up with. -/
structure DlInfo where
  title : String
  preparedFilename : String
  mtime : Int
deriving Repr, DecidableEq

/-- The fields the preview handler reads off the extractor info dict
(app.py lines 96-103), each optional because .get supplies a default. -/
structure PreviewInfo where
  title : Option String
  thumbnail : Option String
  duration : Option Int
  url : Option String
deriving Repr, DecidableEq

/-- Responses of the download route: the success JSON (url, title,
expires_in_seconds), the 400 error JSON, the 500 error JSON. -/
inductive DlResponse where
  | ok (url : String) (title : String) (expires : Int)
  | badRequest (msg : String)
  | serverError (msg : String)
deriving Repr, DecidableEq

/-- Responses of the preview route: the success JSON and the two errors. -/
inductive PvResponse where
  | ok (title thumbnail : String) (duration : Int) (url : String)
  | badRequest (msg : String)
  | serverError (msg : String)
deriving Repr, DecidableEq

/-- os.path.basename for the slash-separated paths used here: the part of
the string after the last slash. -/
def os_path_basename (p : String) : String :=
  String.mk (p.data.foldl (fun acc c => if c == '/' then [] else acc ++ [c]) [])

/-- The outtmpl string the download handler hands to the extractor
(app.py line 120): the upload folder joined with the fixed template. -/
def outtmpl (uid : String) : String :=
  UPLOAD_FOLDER ++ "/video_" ++ uid ++ "_%(title)s.%(ext)s"

/-- The outcome of a download-mode extractor call.  Modelled external
collaborator (yt_dlp, out of scope per the spec): on success exactly one
file exists at the prepared path; on failure the collaborator reports an
error signal and the store is left as it was. -/
def extract_effect (r : Except String DlInfo) (store : List FsFile) : List FsFile :=
  match r with
  | Except.ok info =>
      store ++ [FsFile.mk (os_path_basename info.preparedFilename) info.mtime true]
  | Except.error _ => store

/-- The download route handler (app.py lines 108-137).  Inputs: the url
field of the request JSON as Python sees it (None when absent) together
with its parse, the random unique_id (str(uuid.uuid4())[:8]), the outcome
of the extractor call, and the store contents.  Output: the HTTP response,
the store afterwards, and the trace of effects the handler performed. -/
def download (urlField : Option Url) (uid : String)
    (result : Except String DlInfo) (store : List FsFile) :
    DlResponse × List FsFile × List Event :=
  match urlField with
  | none => (DlResponse.badRequest "Invalid Instagram URL", store, [])
  | some u =>
    if u.raw == "" || !(is_valid_url u) then
      (DlResponse.badRequest "Invalid Instagram URL", store, [])
    else
      match result with
      | Except.ok info =>
          (DlResponse.ok ("/static/downloads/" ++ os_path_basename info.preparedFilename)
              info.title MAX_FILE_AGE_SECONDS,
           extract_effect (Except.ok info) store,
           [Event.extractCall u.raw (some (outtmpl uid))])
      | Except.error _ =>
          (DlResponse.serverError "Could not process the video download.",
           store,
           [Event.extractCall u.raw (some (outtmpl uid))])

/-- The preview route handler (app.py lines 85-106): same validation, an
extractor call with download=False (no file effect), and the preview JSON
with the .get defaults, or the 500 error JSON on any extractor failure. -/
def preview (urlField : Option Url)
    (result : Except String PreviewInfo) (store : List FsFile) :
    PvResponse × List FsFile × List Event :=
  match urlField with
  | none => (PvResponse.badRequest "Invalid Instagram URL", store, [])
  | some u =>
    if u.raw == "" || !(is_valid_url u) then
      (PvResponse.badRequest "Invalid Instagram URL", store, [])
    else
      match result with
      | Except.ok i =>
          (PvResponse.ok (i.title.getD "Video Preview") (i.thumbnail.getD "")
              (i.duration.getD 0) (i.url.getD ""),
           store,
           [Event.extractCall u.raw none])
      | Except.error _ =>
          (PvResponse.serverError "Could not fetch video preview.",
           store,
           [Event.extractCall u.raw none])

/-- Modelled from the spec: the Name Allocator fallback of spec section 4.1,
which is absent from the source — if sanitizing the display title yields
the empty string, substitute the fixed token video.  Stated here only to
compare the spec-mandated behaviour with the source's clean_filename. -/
def allocate_spec (title : String) : String :=
  if clean_filename title = "" then "video" else clean_filename title

/-- Number of rename events in a handler trace. -/
def renameCount (es : List Event) : Nat :=
  es.countP (fun e => match e with | Event.fileRename _ _ => true | _ => false)

/-- Number of cleanup-pass invocations in a handler trace. -/
def cleanupRunCount (es : List Event) : Nat :=
  es.countP (fun e => match e with | Event.cleanupRun => true | _ => false)

/-- A well-formed Instagram URL, used as a concrete test input. -/
def urlIG : Url :=
  { raw := "https://www.instagram.com/reel/abc"
    scheme := "https"
    netloc := "www.instagram.com" }

/-- A non-Instagram URL, used as a concrete test input. -/
def urlBad : Url :=
  { raw := "http://example.com/x"
    scheme := "http"
    netloc := "example.com" }

/-- A concrete successful extractor outcome with a benign title. -/
def infoA : DlInfo :=
  { title := "t"
    preparedFilename := "static/downloads/video_ab12cd34_t.mp4"
    mtime := 100 }

/-- A concrete successful extractor outcome whose prepared filename keeps
the colon and star of the title, as the POSIX build of the extractor does. -/
def infoC5 : DlInfo :=
  { title := "a:b*c"
    preparedFilename := "static/downloads/video_ab12cd34_a:b*c.mp4"
    mtime := 100 }

/-- A per-name removal-failure pattern for the sweep-isolation tests:
removing bad.mp4 raises, every other removal succeeds. -/
def failsBad : String → Bool := fun n => n == "bad.mp4"


/-
Shared lemmas about the sweep pass: a pass over the directory listing
of a store with distinct file names behaves like a filter.
-/

theorem processFile_cons_ne (now maxAge : Int) (fails : String → Bool)
    (f : FsFile) (rest : List FsFile) (name : String)
    (hne : (f.name == name) = false) :
    processFile now maxAge fails (f :: rest) name
      = f :: processFile now maxAge fails rest name := by
  unfold processFile
  rw [List.find?_cons_of_neg _ (by simp [hne])]
  cases hfind : rest.find? (fun g => g.name == name) with
  | none => simp [hfind]
  | some g =>
      simp only [hfind]
      split
      · split
        · split
          · rfl
          · rw [List.filter_cons_of_pos (by simp [hne])]
        · rfl
      · rfl

theorem foldl_processFile_cons (now maxAge : Int) (fails : String → Bool)
    (f : FsFile) (rest : List FsFile) (names : List String)
    (h : ∀ n ∈ names, (f.name == n) = false) :
    List.foldl (processFile now maxAge fails) (f :: rest) names
      = f :: List.foldl (processFile now maxAge fails) rest names := by
  induction names generalizing rest with
  | nil => rfl
  | cons n ns ih =>
      simp only [List.foldl_cons]
      rw [processFile_cons_ne now maxAge fails f rest n (h n (by simp))]
      exact ih (processFile now maxAge fails rest n) (fun m hm => h m (by simp [hm]))

theorem processFile_self (now maxAge : Int) (fails : String → Bool)
    (f : FsFile) (rest : List FsFile)
    (hnotin : ∀ g ∈ rest, (g.name == f.name) = false) :
    processFile now maxAge fails (f :: rest) f.name
      = if sweptAway now maxAge fails f then rest else f :: rest := by
  have hrest : rest.filter (fun g => !(g.name == f.name)) = rest :=
    List.filter_eq_self.mpr (fun g hg => by simp [hnotin g hg])
  unfold processFile sweptAway
  rw [List.find?_cons_of_pos _ (by simp)]
  by_cases h1 : f.isRegular <;> by_cases h2 : isExpired now maxAge f <;>
    by_cases h3 : fails f.name <;>
    simp [h1, h2, h3, List.filter_cons, hrest]

theorem cleanup_eq_filter (now maxAge : Int) (fails : String → Bool)
    (disk : List FsFile) (hnd : (disk.map FsFile.name).Nodup) :
    cleanup_old_files now maxAge fails (disk.map FsFile.name) disk
      = disk.filter (fun f => !(sweptAway now maxAge fails f)) := by
  induction disk with
  | nil => rfl
  | cons f rest ih =>
      simp only [List.map_cons, List.nodup_cons] at hnd
      have hnotin : ∀ g ∈ rest, (g.name == f.name) = false := by
        intro g hg
        have hmem : g.name ∈ rest.map FsFile.name := List.mem_map_of_mem _ hg
        have hne : g.name ≠ f.name := fun he => hnd.1 (he ▸ hmem)
        simp [hne]
      have ihr := ih hnd.2
      unfold cleanup_old_files at ihr ⊢
      simp only [List.map_cons, List.foldl_cons]
      rw [processFile_self now maxAge fails f rest hnotin]
      cases hsw : sweptAway now maxAge fails f with
      | true =>
          rw [if_pos rfl, ihr, List.filter_cons_of_neg (by simp [hsw])]
      | false =>
          rw [if_neg (by simp)]
          rw [foldl_processFile_cons now maxAge fails f rest (rest.map FsFile.name)
            (by intro n hn
                rcases List.mem_map.mp hn with ⟨g, hg, rfl⟩
                have h2 := hnotin g hg
                simp only [beq_eq_false_iff_ne] at h2 ⊢
                exact h2.symm)]
          rw [ihr, List.filter_cons_of_pos (by simp [hsw])]

/-- C1: every sweep pass deletes exactly the regular files in the store
directory whose age (current time minus modification timestamp) is strictly
greater than the configured TTL (default 60 seconds), and leaves every file
whose age is at most the TTL (and every non-regular entry) untouched.
Stated for a pass whose listing is the store itself, with distinct names
and no removal failures: the resulting store is exactly the filter that
keeps a file iff it is not an expired regular file. -/
theorem c1_sweep_exact (now : Int) (disk : List FsFile)
    (hnd : (disk.map FsFile.name).Nodup) :
    MAX_FILE_AGE_SECONDS = 60 ∧
    cleanup_old_files now MAX_FILE_AGE_SECONDS (fun _ => false)
        (disk.map FsFile.name) disk
      = disk.filter (fun f => !(f.isRegular && isExpired now MAX_FILE_AGE_SECONDS f)) := by
  refine ⟨rfl, ?_⟩
  rw [cleanup_eq_filter _ _ _ _ hnd]
  apply List.filter_congr
  intro f _
  simp [sweptAway]

/-- Witness for c1_sweep_exact: a concrete store with one expired file,
one fresh file and one directory entry; the pass at time 70 removes only
the expired regular file. -/
theorem c1_sweep_exact_witness :
    (([FsFile.mk "a.mp4" 0 true, FsFile.mk "b.mp4" 50 true,
        FsFile.mk "d" 0 false].map FsFile.name).Nodup)
    ∧ (MAX_FILE_AGE_SECONDS = 60 ∧
       cleanup_old_files 70 MAX_FILE_AGE_SECONDS (fun _ => false)
          ([FsFile.mk "a.mp4" 0 true, FsFile.mk "b.mp4" 50 true,
            FsFile.mk "d" 0 false].map FsFile.name)
          [FsFile.mk "a.mp4" 0 true, FsFile.mk "b.mp4" 50 true,
            FsFile.mk "d" 0 false]
        = [FsFile.mk "a.mp4" 0 true, FsFile.mk "b.mp4" 50 true,
            FsFile.mk "d" 0 false].filter
            (fun f => !(f.isRegular && isExpired 70 MAX_FILE_AGE_SECONDS f))) :=
  ⟨by decide, c1_sweep_exact 70 _ (by decide)⟩

/-- C7: delete is idempotent.  The removal used by the sweeper never
propagates an error: a second removal of the same name is a no-op, and
when the file is already gone the underlying os.remove reports not-found
(FileNotFoundError) but the logged wrapper leaves the store unchanged and
the sweep loop iteration for a vanished listed name is a no-op as well. -/
theorem c7_delete_idempotent (name : String) (disk : List FsFile)
    (now maxAge : Int) (fails : String → Bool) :
    remove_logged name (remove_logged name disk) = remove_logged name disk
    ∧ (disk.all (fun f => !(f.name == name)) = true →
        os_remove name disk = Except.error "FileNotFoundError"
        ∧ remove_logged name disk = disk
        ∧ processFile now maxAge fails disk name = disk) := by
  constructor
  · unfold remove_logged os_remove
    by_cases h : disk.any (fun f => f.name == name) = true
    · simp only [h, if_true]
      have h2 : (disk.filter (fun f => !(f.name == name))).any
          (fun f => f.name == name) = false := by
        simp [List.any_eq_true, List.mem_filter]
      simp [h2]
    · simp only [Bool.not_eq_true] at h
      simp [h]
  · intro hall
    have hany : disk.any (fun f => f.name == name) = false := by
      simp only [List.all_eq_true] at hall
      simp only [List.any_eq_false]
      intro f hf
      simpa using hall f hf
    have hfind : disk.find? (fun f => f.name == name) = none := by
      rw [List.find?_eq_none]
      intro f hf
      simp only [List.all_eq_true] at hall
      simpa using hall f hf
    refine ⟨?_, ?_, ?_⟩
    · unfold os_remove; simp [hany]
    · unfold remove_logged os_remove; simp [hany]
    · unfold processFile; simp [hfind]

/-- Witness for c7_delete_idempotent at a concrete store which does not
contain the removed name. -/
theorem c7_delete_idempotent_witness :
    (remove_logged "a.mp4" (remove_logged "a.mp4" [FsFile.mk "b.mp4" 0 true])
        = remove_logged "a.mp4" [FsFile.mk "b.mp4" 0 true])
    ∧ (([FsFile.mk "b.mp4" 0 true].all (fun f => !(f.name == "a.mp4"))) = true
        ∧ (os_remove "a.mp4" [FsFile.mk "b.mp4" 0 true] = Except.error "FileNotFoundError"
           ∧ remove_logged "a.mp4" [FsFile.mk "b.mp4" 0 true] = [FsFile.mk "b.mp4" 0 true]
           ∧ processFile 70 60 (fun _ => false) [FsFile.mk "b.mp4" 0 true] "a.mp4"
               = [FsFile.mk "b.mp4" 0 true])) :=
  ⟨(c7_delete_idempotent "a.mp4" [FsFile.mk "b.mp4" 0 true] 70 60 (fun _ => false)).1,
   by decide,
   (c7_delete_idempotent "a.mp4" [FsFile.mk "b.mp4" 0 true] 70 60 (fun _ => false)).2
     (by decide)⟩

/-- C8: within one sweep pass, a removal failure on an individual file does
not abort the pass: any other listed regular file that is expired and whose
own removal succeeds is still deleted, whatever the failure pattern. -/
theorem c8_failure_isolated (now maxAge : Int) (fails : String → Bool)
    (disk : List FsFile) (g : FsFile)
    (hnd : (disk.map FsFile.name).Nodup) (_hg : g ∈ disk)
    (hreg : g.isRegular = true) (hexp : now - g.mtime > maxAge)
    (hok : fails g.name = false) :
    g ∉ cleanup_old_files now maxAge fails (disk.map FsFile.name) disk := by
  rw [cleanup_eq_filter _ _ _ _ hnd]
  intro hmem
  have h2 := (List.mem_filter.mp hmem).2
  simp [sweptAway, isExpired, hreg, hok, hexp] at h2

/-- Witness for c8_failure_isolated: the removal of bad.mp4 raises, yet
good.mp4 (also expired) is still deleted by the same pass. -/
theorem c8_failure_isolated_witness :
    ((([FsFile.mk "bad.mp4" 0 true, FsFile.mk "good.mp4" 0 true].map FsFile.name).Nodup)
      ∧ FsFile.mk "good.mp4" 0 true ∈ [FsFile.mk "bad.mp4" 0 true, FsFile.mk "good.mp4" 0 true]
      ∧ (FsFile.mk "good.mp4" 0 true).isRegular = true
      ∧ (70 : Int) - (FsFile.mk "good.mp4" 0 true).mtime > 60
      ∧ failsBad (FsFile.mk "good.mp4" 0 true).name = false)
    ∧ FsFile.mk "good.mp4" 0 true ∉
        cleanup_old_files 70 60 failsBad
          ([FsFile.mk "bad.mp4" 0 true, FsFile.mk "good.mp4" 0 true].map FsFile.name)
          [FsFile.mk "bad.mp4" 0 true, FsFile.mk "good.mp4" 0 true] :=
  ⟨⟨by decide, by simp, by decide, by decide, by decide⟩,
   c8_failure_isolated 70 60 failsBad _ _ (by decide) (by simp) (by decide)
     (by decide) (by decide)⟩

/-- C9: sweep passes never overlap.  The background task is one sequential
loop: projecting its trace onto pass boundary events yields, for every
number of iterations, strictly alternating start and end markers in
iteration order — each pass ends before the next one starts. -/
theorem c9_sweeps_sequential (n : Nat) :
    (background_cleanup_trace n).filter isPassEvent
      = (List.range n).flatMap
          (fun i => [SweepEvent.passStart i, SweepEvent.passEnd i]) := by
  induction n with
  | zero => rfl
  | succ m ih =>
      rw [background_cleanup_trace, List.range_succ]
      simp [List.filter_append, ih, isPassEvent]

/-- C2 counterexample: the claim says a fetch first persists bytes to a
temporary path while a record is in state Writing and then atomically
renames into the final path.  On this concrete successful fetch the
handler trace consists of the single extractor invocation — it performs
no rename (renameCount is zero) and the downloaded file appears in the
store directly under its final name; the source maintains no record
states at all. -/
theorem c2_no_temp_rename_cex :
    (download (some urlIG) "ab12cd34" (Except.ok infoA) []).1
        = DlResponse.ok "/static/downloads/video_ab12cd34_t.mp4" "t" 60
    ∧ renameCount (download (some urlIG) "ab12cd34" (Except.ok infoA) []).2.2 = 0
    ∧ (download (some urlIG) "ab12cd34" (Except.ok infoA) []).2.1
        = [FsFile.mk "video_ab12cd34_t.mp4" 100 true] := by decide

/-- C2 amended: on a successful fetch the handler delegates persistence
wholly to the extractor, handing it the final-path output template; the
file appears in the store directly at its final name, the handler performs
no temporary-path write and no rename, and no Writing/Available record
state exists in the code. -/
theorem c2_direct_write (u : Url) (uid : String) (info : DlInfo)
    (store : List FsFile)
    (h1 : (u.raw == "") = false) (h2 : is_valid_url u = true) :
    download (some u) uid (Except.ok info) store
      = (DlResponse.ok ("/static/downloads/" ++ os_path_basename info.preparedFilename)
            info.title MAX_FILE_AGE_SECONDS,
         store ++ [FsFile.mk (os_path_basename info.preparedFilename) info.mtime true],
         [Event.extractCall u.raw (some (outtmpl uid))])
    ∧ renameCount (download (some u) uid (Except.ok info) store).2.2 = 0 := by
  have hd : download (some u) uid (Except.ok info) store
      = (DlResponse.ok ("/static/downloads/" ++ os_path_basename info.preparedFilename)
            info.title MAX_FILE_AGE_SECONDS,
         store ++ [FsFile.mk (os_path_basename info.preparedFilename) info.mtime true],
         [Event.extractCall u.raw (some (outtmpl uid))]) := by
    unfold download
    simp [h1, h2, extract_effect]
  refine ⟨hd, ?_⟩
  rw [hd]
  rfl

/-- Witness for c2_direct_write at a concrete valid request. -/
theorem c2_direct_write_witness :
    ((urlIG.raw == "") = false ∧ is_valid_url urlIG = true)
    ∧ (download (some urlIG) "ab12cd34" (Except.ok infoA) []
        = (DlResponse.ok ("/static/downloads/" ++ os_path_basename infoA.preparedFilename)
              infoA.title MAX_FILE_AGE_SECONDS,
           [] ++ [FsFile.mk (os_path_basename infoA.preparedFilename) infoA.mtime true],
           [Event.extractCall urlIG.raw (some (outtmpl "ab12cd34"))])
       ∧ renameCount (download (some urlIG) "ab12cd34" (Except.ok infoA) []).2.2 = 0) :=
  ⟨⟨by decide, by decide⟩,
   c2_direct_write urlIG "ab12cd34" infoA [] (by decide) (by decide)⟩

/-- C3 counterexample: the claim says every download request first triggers
an out-of-cycle sweep before invoking the extractor.  On this concrete
valid request the handler trace contains no cleanup run at all, while the
extractor is invoked. -/
theorem c3_no_presweep_cex :
    cleanupRunCount (download (some urlIG) "ab12cd34" (Except.ok infoA) []).2.2 = 0
    ∧ (download (some urlIG) "ab12cd34" (Except.ok infoA) []).2.2
        = [Event.extractCall "https://www.instagram.com/reel/abc"
            (some "static/downloads/video_ab12cd34_%(title)s.%(ext)s")] := by decide

/-- C3 amended: the download handler never triggers a sweep: for every
request input, extractor outcome and store, its trace contains no
cleanup run; expired files are purged only by the periodic background
task. -/
theorem c3_no_presweep (urlField : Option Url) (uid : String)
    (r : Except String DlInfo) (store : List FsFile) :
    cleanupRunCount (download urlField uid r store).2.2 = 0 := by
  cases urlField with
  | none => rfl
  | some u =>
      unfold download
      by_cases h : (u.raw == "" || !(is_valid_url u)) = true
      · simp [h, cleanupRunCount]
      · cases r with
        | ok info => simp [h, cleanupRunCount]
        | error e => simp [h, cleanupRunCount]

/-- C4: a fetch whose external extraction fails returns the extraction
failure JSON (HTTP 500 body) instead of propagating the exception, and
leaves the store exactly as it was: no file — visible or partial — is
added.  The extractor is modelled as the spec treats it: an opaque
collaborator that on failure yields only an error signal. -/
theorem c4_failure_clean (u : Url) (uid msg : String) (store : List FsFile)
    (h1 : (u.raw == "") = false) (h2 : is_valid_url u = true) :
    download (some u) uid (Except.error msg) store
      = (DlResponse.serverError "Could not process the video download.",
         store, [Event.extractCall u.raw (some (outtmpl uid))]) := by
  unfold download
  simp [h1, h2]

/-- Witness for c4_failure_clean at a concrete valid request whose
extraction fails; the pre-existing store entry is untouched. -/
theorem c4_failure_clean_witness :
    ((urlIG.raw == "") = false ∧ is_valid_url urlIG = true)
    ∧ download (some urlIG) "ab12cd34" (Except.error "boom") [FsFile.mk "x.mp4" 0 true]
        = (DlResponse.serverError "Could not process the video download.",
           [FsFile.mk "x.mp4" 0 true],
           [Event.extractCall urlIG.raw (some (outtmpl "ab12cd34"))]) :=
  ⟨⟨by decide, by decide⟩,
   c4_failure_clean urlIG "ab12cd34" "boom" [FsFile.mk "x.mp4" 0 true]
     (by decide) (by decide)⟩

/-- C5 counterexample: the claim concludes that the identifier produced for
a fetched title contains none of the removed characters.  The download
handler never applies clean_filename: the served identifier is just the
basename of the extractor-prepared filename.  With the extractor keeping
the colon and star of the title (as its POSIX build does), the fetch
succeeds and the served identifier still contains characters of the
removal class, although clean_filename would have removed them. -/
theorem c5_unsanitized_identifier_cex :
    (download (some urlIG) "ab12cd34" (Except.ok infoC5) []).1
        = DlResponse.ok "/static/downloads/video_ab12cd34_a:b*c.mp4" "a:b*c" 60
    ∧ (os_path_basename infoC5.preparedFilename).data.any
        (fun c => badChars.contains c) = true
    ∧ clean_filename "a:b*c" = "abc" := by decide

/-- C5 amended: the sanitization function itself removes every occurrence
of the characters backslash, slash, star, question mark, colon, double
quote, less-than, greater-than and pipe, and nothing else: its output
contains no such character, preserves the multiplicity of every other
character, and is a subsequence of the input.  The download path, however,
does not invoke it, so this guarantee does not transfer to served
identifiers. -/
theorem c5_sanitize_exact (s : String) (c : Char)
    (h : badChars.contains c = false) :
    (clean_filename s).data.all (fun a => !(badChars.contains a)) = true
    ∧ (clean_filename s).data.count c = s.data.count c
    ∧ (clean_filename s).data.Sublist s.data := by
  refine ⟨?_, ?_, ?_⟩
  · simp only [clean_filename, List.all_eq_true, List.mem_filter]
    intro a ha
    exact ha.2
  · simp only [clean_filename]
    exact List.count_filter (by simpa using h)
  · exact List.filter_sublist s.data

/-- Witness for c5_sanitize_exact at the title from the spec scenario and
a character outside the removal class. -/
theorem c5_sanitize_exact_witness :
    badChars.contains 'a' = false
    ∧ ((clean_filename "a/b:c*d").data.all (fun a => !(badChars.contains a)) = true
       ∧ (clean_filename "a/b:c*d").data.count 'a' = "a/b:c*d".data.count 'a'
       ∧ (clean_filename "a/b:c*d").data.Sublist "a/b:c*d".data) :=
  ⟨by decide, c5_sanitize_exact "a/b:c*d" 'a' (by decide)⟩

/-- C6 counterexample: the claim says that when sanitizing the display
title yields the empty string, a fixed fallback token such as video is
substituted.  Sanitizing the all-removed title of three slashes yields
the empty string, the spec-modelled allocator would substitute video,
and the code's sanitizer output differs from it: no fallback happens
anywhere in the source. -/
theorem c6_no_fallback_cex :
    clean_filename "///" = ""
    ∧ allocate_spec "///" = "video"
    ∧ (clean_filename "///" == allocate_spec "///") = false := by decide

/-- C6 amended: a title consisting solely of characters of the removal
class sanitizes to the empty string, and no fallback token is substituted:
the sanitizer output is empty, not video.  (The literal prefix video_ of
the output template appears for every title, but it is unconditional, not
a fallback.) -/
theorem c6_no_fallback (title : String)
    (h : title.data.all (fun c => badChars.contains c) = true) :
    clean_filename title = "" ∧ clean_filename title ≠ "video" := by
  have hempty : clean_filename title = "" := by
    unfold clean_filename
    have hnil : title.data.filter (fun c => !(badChars.contains c)) = [] := by
      rw [List.filter_eq_nil_iff]
      intro a ha
      have hc := List.all_eq_true.mp h a ha
      simpa using hc
    rw [hnil]
  refine ⟨hempty, ?_⟩
  rw [hempty]
  decide

/-- Witness for c6_no_fallback at the all-slashes title. -/
theorem c6_no_fallback_witness :
    ("///".data.all (fun c => badChars.contains c) = true)
    ∧ (clean_filename "///" = "" ∧ clean_filename "///" ≠ "video") :=
  ⟨by decide, c6_no_fallback "///" (by decide)⟩

/-- C10: a download or preview request whose url field is missing, or whose
parsed URL lacks a scheme or a network location, or whose network location
does not contain instagram.com, is answered with the 400 invalid-URL error,
and the handler performs no extractor call and no filesystem effect: the
store is returned unchanged and the trace is empty. -/
theorem c10_invalid_url_rejected (urlField : Option Url) (uid : String)
    (dres : Except String DlInfo) (pres : Except String PreviewInfo)
    (store : List FsFile)
    (h : urlField = none ∨ ∃ u, urlField = some u ∧
        (u.scheme = "" ∨ u.netloc = "" ∨ hasSubstr "instagram.com" u.netloc = false)) :
    download urlField uid dres store
        = (DlResponse.badRequest "Invalid Instagram URL", store, [])
    ∧ preview urlField pres store
        = (PvResponse.badRequest "Invalid Instagram URL", store, []) := by
  rcases h with h | ⟨u, rfl, hu⟩
  · subst h
    exact ⟨rfl, rfl⟩
  · have hv : is_valid_url u = false := by
      unfold is_valid_url
      rcases hu with h1 | h1 | h1 <;> simp [h1]
    unfold download preview
    simp [hv]

/-- Witness for c10_invalid_url_rejected at a well-formed non-Instagram
URL with a non-empty store. -/
theorem c10_invalid_url_rejected_witness :
    (some urlBad = none ∨ ∃ u, some urlBad = some u ∧
        (u.scheme = "" ∨ u.netloc = "" ∨ hasSubstr "instagram.com" u.netloc = false))
    ∧ (download (some urlBad) "ab12cd34" (Except.error "e") [FsFile.mk "x.mp4" 0 true]
          = (DlResponse.badRequest "Invalid Instagram URL", [FsFile.mk "x.mp4" 0 true], [])
       ∧ preview (some urlBad) (Except.error "e") [FsFile.mk "x.mp4" 0 true]
          = (PvResponse.badRequest "Invalid Instagram URL", [FsFile.mk "x.mp4" 0 true], [])) :=
  ⟨Or.inr ⟨urlBad, rfl, Or.inr (Or.inr (by decide))⟩,
   c10_invalid_url_rejected (some urlBad) "ab12cd34" (Except.error "e") (Except.error "e")
     [FsFile.mk "x.mp4" 0 true]
     (Or.inr ⟨urlBad, rfl, Or.inr (Or.inr (by decide))⟩)⟩

end Clippo
